import Mathlib

/-!
# Verification of the El Vigilante batch LLM enrichment pipeline

Shallow embedding of the JSONL batch-processing pipeline:

* `llm_processor.py` (`call_llm`, `generate_plain_summary`, `extract_keywords`,
  `determine_affected_groups`, `explain_transparency_importance`,
  `process_document_with_llm`),
* `process_with_llm_parallel.py` (`process_single_doc`, `process_jsonl_file_parallel`),
* `process_with_llm.py` (`process_jsonl_file`),
* `BOE/generate_short_titles_parallel.py` (`generate_title_for_doc`, `process_file_parallel`).

Records are Python dicts loaded from JSON; they are modelled as association
lists over a small JSON value type covering the shapes these records use
(null, booleans, integers, strings, lists of strings).  External effects
(the OpenAI service, the on-disk response cache, `json.loads` on free-form
service responses) are oracle parameters.
-/

set_option autoImplicit false

/-- JSON-ish values as they occur in the pipeline's records. -/
inductive Val where
  | vnull : Val
  | vbool : Bool → Val
  | vint : Int → Val
  | vstr : String → Val
  | vlist : List String → Val
  deriving DecidableEq, Repr

/-- Python truthiness of a string (`if s:`): non-empty. -/
def strTruthy (s : String) : Bool := !s.data.isEmpty

/-- Python truthiness of a value: `None`, `False`, `0`, `""`, `[]` are falsy. -/
def Val.truthy : Val → Bool
  | .vnull => false
  | .vbool b => b
  | .vint n => n != 0
  | .vstr s => strTruthy s
  | .vlist l => !l.isEmpty

/-- Python truthiness of `doc.get(k)` (absent key gives `None`, which is falsy). -/
def optTruthy : Option Val → Bool
  | some v => v.truthy
  | none => false

/-- `str(v)` / f-string interpolation of a value.  The pipeline only ever
interpolates string fields, so only `vstr` matters in practice. -/
def pyStr : Val → String
  | .vstr s => s
  | .vnull => "None"
  | .vbool true => "True"
  | .vbool false => "False"
  | .vint n => toString n
  | .vlist l => toString l

/-- A record: a Python dict as an insertion-ordered association list.
Dicts have unique keys, so all record values arising from `json.loads`
have pairwise distinct keys. -/
abbrev Doc := List (String × Val)

/-- `doc.get(k)` / `doc[k]`: first binding of the key, `none` when absent. -/
def dGet : Doc → String → Option Val
  | [], _ => none
  | (k', v) :: rest, k => if k' = k then some v else dGet rest k

/-- `doc.get(k, dflt)`. -/
def dGetD (d : Doc) (k : String) (dflt : Val) : Val := (dGet d k).getD dflt

/-- `doc[k] = v`: update the existing binding in place, else append. -/
def dSet : Doc → String → Val → Doc
  | [], k, v => [(k, v)]
  | (k', v') :: rest, k, v =>
    if k' = k then (k, v) :: rest else (k', v') :: dSet rest k v

/-- `del doc[k]`: remove the binding of `k` (dict keys are unique, so
removing every occurrence agrees with removing the one binding). -/
def dErase : Doc → String → Doc
  | [], _ => []
  | (k', v) :: rest, k =>
    if k' = k then dErase rest k else (k', v) :: dErase rest k

@[simp] theorem dGet_nil (k : String) : dGet [] k = none := rfl

theorem dGet_dSet_self (d : Doc) (k : String) (v : Val) :
    dGet (dSet d k v) k = some v := by
  induction d with
  | nil => simp [dGet, dSet]
  | cons p rest ih =>
    by_cases h : p.1 = k
    · simp [dGet, dSet, h]
    · simp [dGet, dSet, h, ih]

theorem dGet_dSet_ne {d : Doc} {k k' : String} (hne : ¬ k = k') (v : Val) :
    dGet (dSet d k v) k' = dGet d k' := by
  have hne' : ¬ k' = k := fun hh => hne hh.symm
  induction d with
  | nil => simp [dGet, dSet, hne]
  | cons p rest ih =>
    by_cases h : p.1 = k
    · have h2 : ¬ p.1 = k' := by rw [h]; exact hne
      simp [dGet, dSet, h, h2, hne]
    · by_cases h3 : p.1 = k'
      · simp [dGet, dSet, h, h3, hne']
      · simp [dGet, dSet, h, h3, ih]

theorem dGet_dErase_self (d : Doc) (k : String) :
    dGet (dErase d k) k = none := by
  induction d with
  | nil => simp [dErase]
  | cons p rest ih =>
    by_cases h : p.1 = k
    · simp [dErase, h, ih]
    · simp [dErase, dGet, h, ih]

theorem dGet_dErase_ne {d : Doc} {k k' : String} (hne : ¬ k = k') :
    dGet (dErase d k) k' = dGet d k' := by
  have hne' : ¬ k' = k := fun hh => hne hh.symm
  induction d with
  | nil => simp [dErase]
  | cons p rest ih =>
    by_cases h : p.1 = k
    · have h2 : ¬ p.1 = k' := by rw [h]; exact hne
      simp [dErase, dGet, h, h2, hne, ih]
    · by_cases h3 : p.1 = k'
      · simp [dErase, dGet, h, h3, hne']
      · simp [dErase, dGet, h, h3, ih]

/-! ## Python string helpers

Python strings are sequences of code points; the embedding works on
`String.data` (the underlying `List Char`) so that slicing and splitting
are by code point, as in Python. -/

/-- `s[:n]` — prefix slice by code points. -/
def pyTake (s : String) (n : Nat) : String := ⟨s.data.take n⟩

/-- One step of Python `str.split()` (split on whitespace runs, dropping
empty pieces); `acc` holds the current word reversed. -/
def pyWordsGo : List Char → List Char → List String
  | [], acc => if acc.isEmpty then [] else [⟨acc.reverse⟩]
  | c :: rest, acc =>
    if c.isWhitespace then
      if acc.isEmpty then pyWordsGo rest [] else ⟨acc.reverse⟩ :: pyWordsGo rest []
    else pyWordsGo rest (c :: acc)

/-- Python `s.split()` with no argument. -/
def pyWords (s : String) : List String := pyWordsGo s.data []

/-- Python `s.lower()` (ASCII-adequate). -/
def pyLower (s : String) : String := ⟨s.data.map Char.toLower⟩

/-- Python `s.strip()`. -/
def pyStrip (s : String) : String :=
  ⟨(((s.data.dropWhile Char.isWhitespace).reverse).dropWhile Char.isWhitespace).reverse⟩

/-- Python `s.find(c)`: index of the first occurrence, `none` for `-1`. -/
def pyFind (l : List Char) (c : Char) : Option Nat := l.findIdx? (· = c)

/-- Python `s.rfind(c)`: index of the last occurrence, `none` for `-1`. -/
def pyRFind (l : List Char) (c : Char) : Option Nat :=
  match l.reverse.findIdx? (· = c) with
  | some i => some (l.length - 1 - i)
  | none => none

/-! ## Service layer: `call_llm` and the tenacity retry decorator

`call_llm` is decorated `@retry(stop=stop_after_attempt(3),
wait=wait_exponential(multiplier=2, min=4, max=30))`.  Tenacity's default
retry predicate retries on **any** `Exception`.  An attempt oracle
`att : Nat → Except Exn String` gives the outcome of the n-th attempt
(the raw `response.choices[0].message.content`, which the body strips);
`call_llm` returns the result together with the number of attempts used. -/

/-- The exception kinds the embedding distinguishes: transient service
errors (timeout / rate limit / 5xx), any other service-call exception
(e.g. an authentication failure), Python `IndexError`, and `KeyError`. -/
inductive Exn where
  | service : Exn
  | other : Exn
  | index : Exn
  | keyErr : Exn
  deriving DecidableEq, Repr

deriving instance DecidableEq for Except

/-- `wait_exponential(multiplier=2, min=4, max=30)`: sleep before the retry
following the n-th failed attempt. -/
def tenacityWait (attempt : Nat) : Nat := max 4 (min 30 (2 * 2 ^ (attempt - 1)))

/-- `.strip()` applied to a successful response. -/
def stripExcept : Except Exn String → Except Exn String
  | .ok s => .ok (pyStrip s)
  | .error e => .error e

/-- The tenacity loop: `attempt` is the 1-based attempt counter, the second
argument the number of attempts still allowed.  On the final allowed attempt
the outcome (stripped on success) is surfaced to the caller; earlier failed
attempts are retried whatever the exception was. -/
def retryGo (att : Nat → Except Exn String) : Nat → Nat → Except Exn String × Nat
  | attempt, 0 => (Except.error Exn.other, attempt)
  | attempt, 1 => (stripExcept (att attempt), attempt)
  | attempt, fuel + 2 =>
    match att attempt with
    | .ok s => (.ok (pyStrip s), attempt)
    | .error _ => retryGo att (attempt + 1) (fuel + 1)

/-- `call_llm` under `stop_after_attempt(3)`: result and attempts used. -/
def call_llm (att : Nat → Except Exn String) : Except Exn String × Nat :=
  retryGo att 1 3

/-! ## Content generation functions

The on-disk response cache is an oracle `Cache`; `get_cache_key` is the md5
of the user prompt, so the cache is modelled as keyed by the user prompt
itself.  `save_to_cache` only writes (never read again within one call), so
it does not appear in the value-level model.  `Svc` models the decorated
`call_llm` as seen by these functions: system prompt → user prompt →
stripped content or exception; each invocation is one service call, counted
in the second component of each result.  `JParse` models `json.loads`
restricted to the JSON-array-of-strings shape these functions expect
(`none` = `JSONDecodeError` or wrong shape). -/

abbrev Cache := String → Option String

abbrev Svc := String → String → Except Exn String

abbrev JParse := String → Option (List String)

def summarySystemPrompt : String :=
  "Eres un traductor de lenguaje jurídico a lenguaje ciudadano para el proyecto \x27El Vigilante\x27.\n\nTu tarea es explicar leyes, decretos y normativas en español claro y accesible.\n\nREGLAS ESTRICTAS:\n- Usa segunda persona (\"te afecta si...\", \"podrás deducir...\")\n- Evita tecnicismos jurídicos innecesarios (no uses \"apartado\", \"disposición\", \"literal\", etc.)\n- Sé conciso: 150-300 palabras máximo\n- Explica el impacto real en la vida de las personas\n- Si hay cambios, indica qué cambia respecto a antes\n- Tono pedagógico, no alarmista ni sensacionalista\n- No emitas juicios políticos"

/-- `boe_excerpt = boe_text[:max_chars] if boe_text else ""`. -/
def mkExcerpt (boe_text : String) (max_chars : Nat) : String :=
  if strTruthy boe_text then pyTake boe_text max_chars else ""

def plainSummaryHeader : String := "Documento del BOE:\n\nTÍTULO: "

def plainSummaryTail : String :=
  "\n\nGenera un resumen en lenguaje ciudadano que explique:\n1. ¿Qué aprueba este documento?\n2. ¿A quién afecta?\n3. ¿Qué cambia o qué novedad trae?\n\nResumen (150-300 palabras):"

/-- The f-string user prompt of `generate_plain_summary`. -/
def plainSummaryUserPrompt (title excerpt : String) : String :=
  plainSummaryHeader ++ title ++ "\n\n" ++
    (if strTruthy excerpt then "EXTRACTO: " ++ excerpt else "") ++
    plainSummaryTail

/-- `generate_plain_summary(title, boe_text, max_chars)`: cache check
(`if cached_response:` — a hit must be truthy), else one `call_llm`. -/
def generate_plain_summary (cache : Cache) (svc : Svc) (title boe_text : String)
    (max_chars : Nat) : Except Exn String × Nat :=
  match cache (plainSummaryUserPrompt title (mkExcerpt boe_text max_chars)) with
  | some c =>
    if strTruthy c then (Except.ok c, 0)
    else (svc summarySystemPrompt (plainSummaryUserPrompt title (mkExcerpt boe_text max_chars)), 1)
  | none => (svc summarySystemPrompt (plainSummaryUserPrompt title (mkExcerpt boe_text max_chars)), 1)

def keywordsSystemPrompt : String :=
  "Eres un clasificador de contenido para el proyecto \x27El Vigilante\x27.\nExtrae las 5-8 palabras clave más relevantes de documentos del BOE.\n\nREGLAS:\n- Solo palabras o frases cortas (1-3 palabras)\n- En minúsculas\n- Relevantes para búsqueda ciudadana (no jerga jurídica)\n- Formato: lista JSON de strings"

def keywordsUserPrompt (title summary : String) : String :=
  "Documento:\n\nTÍTULO: " ++ title ++ "\n\nRESUMEN: " ++ pyTake summary 500 ++
    "\n\nExtrae 5-8 keywords en formato JSON:\n[\"keyword1\", \"keyword2\", ...]"

/-- `response[json_start:json_end]` with `json_start = response.find("[")`
and `json_end = response.rfind("]") + 1`, guarded by
`json_start != -1 and json_end > json_start`. -/
def jsonArraySlice (s : String) : Option String :=
  match pyFind s.data '[', pyRFind s.data ']' with
  | some i, some j => if i < j + 1 then some ⟨(s.data.drop i).take (j + 1 - i)⟩ else none
  | _, _ => none

/-- `[title.split()[0].lower(), "boe", "normativa"]`; `title.split()[0]`
raises `IndexError` on a whitespace-only title. -/
def fallbackKeywords (title : String) : Except Exn (List String) :=
  match pyWords title with
  | [] => Except.error Exn.index
  | w :: _ => Except.ok [pyLower w, "boe", "normativa"]

/-- `extract_keywords(title, summary)`: truthy cache hit parsed directly with
`json.loads` (parse failure falls through to the call); otherwise one
`call_llm`, then the bracket slice is parsed — on success the first 8
keywords are returned, on any parse failure the word-extraction fallback. -/
def extract_keywords (jloads : JParse) (cache : Cache) (svc : Svc)
    (title summary : String) : Except Exn (List String) × Nat :=
  let up := keywordsUserPrompt title summary
  let callPath : Except Exn (List String) × Nat :=
    match svc keywordsSystemPrompt up with
    | .error e => (.error e, 1)
    | .ok resp =>
      match (jsonArraySlice resp).bind jloads with
      | some ks => (.ok (ks.take 8), 1)
      | none => (fallbackKeywords title, 1)
  match cache up with
  | some c =>
    if strTruthy c then
      match jloads c with
      | some ks => (.ok ks, 0)
      | none => callPath
    else callPath
  | none => callPath

def groupsSystemPrompt : String :=
  "Eres un clasificador para \x27El Vigilante\x27.\nIdentifica a quién afecta un documento del BOE.\n\nGRUPOS POSIBLES:\n- todos_ciudadanos\n- autónomos\n- empresas\n- funcionarios\n- pensionistas\n- estudiantes\n- familias\n- sector_sanitario\n- sector_educativo\n- sector_agrícola\n- sector_tecnológico\n- sector_industrial\n- otros\n\nREGLAS:\n- Devuelve 1-3 grupos más relevantes\n- Formato: lista JSON de strings"

def groupsUserPrompt (title summary : String) : String :=
  "Documento:\n\nTÍTULO: " ++ title ++ "\n\nRESUMEN: " ++ pyTake summary 500 ++
    "\n\n¿A quién afecta principalmente? Responde en formato JSON:\n[\"grupo1\", \"grupo2\"]"

/-- `determine_affected_groups(summary, title)`: like `extract_keywords`
but capped at 3 groups, with fallback `["todos_ciudadanos"]`. -/
def determine_affected_groups (jloads : JParse) (cache : Cache) (svc : Svc)
    (summary title : String) : Except Exn (List String) × Nat :=
  let up := groupsUserPrompt title summary
  let callPath : Except Exn (List String) × Nat :=
    match svc groupsSystemPrompt up with
    | .error e => (.error e, 1)
    | .ok resp =>
      match (jsonArraySlice resp).bind jloads with
      | some gs => (.ok (gs.take 3), 1)
      | none => (.ok ["todos_ciudadanos"], 1)
  match cache up with
  | some c =>
    if strTruthy c then
      match jloads c with
      | some gs => (.ok gs, 0)
      | none => callPath
    else callPath
  | none => callPath

def transparencySystemPrompt : String :=
  "Eres un educador cívico para \x27El Vigilante\x27.\nExplica en 1-2 frases POR QUÉ es importante que la ciudadanía conozca este documento del BOE.\n\nREGLAS:\n- Tono pedagógico, no alarmista\n- Enfócate en el impacto práctico en sus vidas\n- Máximo 100 palabras"

def transparencyUserPrompt (title summary : String) : String :=
  "Documento:\n\nTÍTULO: " ++ title ++ "\n\nRESUMEN: " ++ pyTake summary 400 ++
    "\n\n¿Por qué es importante que los ciudadanos sepan esto?"

/-- `explain_transparency_importance(title, summary)`. -/
def explain_transparency_importance (cache : Cache) (svc : Svc)
    (title summary : String) : Except Exn String × Nat :=
  match cache (transparencyUserPrompt title summary) with
  | some c =>
    if strTruthy c then (Except.ok c, 0)
    else (svc transparencySystemPrompt (transparencyUserPrompt title summary), 1)
  | none => (svc transparencySystemPrompt (transparencyUserPrompt title summary), 1)

/-! ## `process_document_with_llm` and `process_single_doc`

`process_document_with_llm` enriches one record: each of the four
generation steps is wrapped in its own `try/except` with a field-level
fallback; a failure of the summary step stores a placeholder and returns
early (without setting `updated_at`).  The final log line reads `doc["id"]`
and raises `KeyError` when the field is absent — the only exception that
can escape for a dict record, and it fires only **after** the function has
already mutated the dict in place with all five enrichment fields.  The
Python function works by in-place mutation; the pure embedding therefore
makes an escaping exception carry the dict **as mutated at the point the
exception escapes** (the `Exn × Doc` error payload), so that a caller's
`except` handler returning `doc` observes the mutated record exactly as in
the source. -/

def placeholderSummary (title : String) : String := "[Error al procesar] " ++ title

def defaultTransparency : String :=
  "Documento oficial del BOE que puede afectar a la ciudadanía."

/-- `doc["keywords"]`: the `try` result, else the `except` fallback
`["boe", doc.get("type", "documento")]`. -/
def keywordsField (jloads : JParse) (cache : Cache) (svc : Svc)
    (doc : Doc) (title summary : String) : Val :=
  match (extract_keywords jloads cache svc title summary).1 with
  | .ok ks => Val.vlist ks
  | .error _ => Val.vlist ["boe", pyStr (dGetD doc "type" (Val.vstr "documento"))]

/-- `doc["affects_to"]`: the `try` result, else `["todos_ciudadanos"]`. -/
def groupsField (jloads : JParse) (cache : Cache) (svc : Svc)
    (summary title : String) : Val :=
  match (determine_affected_groups jloads cache svc summary title).1 with
  | .ok gs => Val.vlist gs
  | .error _ => Val.vlist ["todos_ciudadanos"]

/-- `doc["transparency_notes"]`: the `try` result, else the default note. -/
def transparencyField (cache : Cache) (svc : Svc) (title summary : String) : Val :=
  match (explain_transparency_importance cache svc title summary).1 with
  | .ok t => Val.vstr t
  | .error _ => Val.vstr defaultTransparency

def process_document_with_llm (jloads : JParse) (cache : Cache) (svc : Svc)
    (now : String) (doc : Doc) : Except (Exn × Doc) Doc × Nat :=
  let title := pyStr (dGetD doc "title_original" (Val.vstr ""))
  match generate_plain_summary cache svc title "" 2000 with
  | (.error _, c1) =>
    (.ok (dSet doc "summary_plain_es" (Val.vstr (placeholderSummary title))), c1)
  | (.ok summary, c1) =>
    let calls := c1 + (extract_keywords jloads cache svc title summary).2 +
      (determine_affected_groups jloads cache svc summary title).2 +
      (explain_transparency_importance cache svc title summary).2
    let doc5 :=
      dSet
        (dSet
          (dSet
            (dSet (dSet doc "summary_plain_es" (Val.vstr summary))
              "keywords" (keywordsField jloads cache svc doc title summary))
            "affects_to" (groupsField jloads cache svc summary title))
          "transparency_notes" (transparencyField cache svc title summary))
        "updated_at" (Val.vstr now)
    match dGet doc "id" with
    | some _ => (.ok doc5, calls)
    | none => (.error (Exn.keyErr, doc5), calls)

/-- `process_single_doc(doc)`: run the document processor; on an escaped
exception the `except` handler returns `doc` — the same dict object, which
`process_document_with_llm` has mutated in place, i.e. the record carried
in the error payload. -/
def process_single_doc (jloads : JParse) (cache : Cache) (svc : Svc)
    (now : String) (doc : Doc) : Doc × Nat :=
  match process_document_with_llm jloads cache svc now doc with
  | (.ok d, c) => (d, c)
  | (.error (_, d), c) => (d, c)

/-! ## The JSONL file pipelines

A file is a list of lines; a line is blank, unparseable, or a JSON record.
(A line holding valid non-object JSON is outside the model; no claim
concerns it.) -/

inductive Line where
  | blank : Line
  | malformed : String → Line
  | record : Doc → Line
  deriving DecidableEq, Repr

/-- The parallel loader body: `if line.strip():` skips blanks,
`except json.JSONDecodeError: continue` skips unparseable lines. -/
def parseLine : Line → Option Doc
  | .record d => some d
  | _ => none

def isRecordLine : Line → Bool
  | .record _ => true
  | _ => false

/-- `documents` after the parallel loader loop. -/
def loadDocs (ls : List Line) : List Doc := ls.filterMap parseLine

/-- The sequential loader (`process_with_llm.py`) has no `try` around
`json.loads`, so an unparseable line raises (`none`). -/
def loadDocsSeq : List Line → Option (List Doc)
  | [] => some []
  | .blank :: ls => loadDocsSeq ls
  | .malformed _ :: _ => none
  | .record d :: ls => (loadDocsSeq ls).map (d :: ·)

/-- The work selector `doc.get("full_text") and not doc.get("updated_at")`,
used identically by both `process_jsonl_file_parallel` and
`process_jsonl_file`. -/
def selected (d : Doc) : Bool :=
  optTruthy (dGet d "full_text") && !optTruthy (dGet d "updated_at")

/-- `to_process`. -/
def toProcess (docs : List Doc) : List Doc := docs.filter selected

/-- `skipped`. -/
def skippedDocs (docs : List Doc) : List Doc := docs.filter (fun d => !selected d)

/-- `processed_map = {doc["id"]: doc for doc in processed_results}` —
`none` models the `KeyError` when a processed record lacks `id`. -/
def buildMap? : List Doc → Option (List (Val × Doc))
  | [] => some []
  | d :: rest =>
    match dGet d "id" with
    | none => none
    | some v => (buildMap? rest).map ((v, d) :: ·)

/-- Dict lookup in `processed_map`: comprehension entries overwrite earlier
ones with the same key, so the last binding wins. -/
def mapLookup (m : List (Val × Doc)) (v : Val) : Option Doc :=
  (m.reverse.find? (fun p => p.1 == v)).map (fun p => p.2)

/-- The merge loop of `process_jsonl_file_parallel`: for every loaded
record in input order, substitute the processed version when its `id` is in
`processed_map`, else keep the record; `doc["id"]` raises (`none`) when a
record has no `id`. -/
def mergeById (m : List (Val × Doc)) : List Doc → Option (List Doc)
  | [] => some []
  | d :: rest =>
    match dGet d "id" with
    | none => none
    | some v => (mergeById m rest).map (((mapLookup m v).getD d) :: ·)

/-- The output loop: each record is copied, `full_text` deleted, and
dumped as one JSON line. -/
def dStrip (d : Doc) : Doc := dErase d "full_text"

def writeDocs (final : List Doc) : List Line :=
  final.map (fun d => Line.record (dStrip d))

/-- Contents of the output file while the in-place write loop is running:
`open(output_file, "w")` truncates, then lines are written sequentially,
so after `k` writes the file holds the first `k` new lines. -/
def writeStates (out : List Line) (k : Nat) : List Line := out.take k

/-- Observable outcome of one run on a file. -/
inductive RunRes where
  | noWrite : RunRes
  | crashed : RunRes
  | wrote : List Line → RunRes
  deriving DecidableEq, Repr

/-- `process_jsonl_file_parallel` after loading: filter, early return when
nothing is selected, enrich each selected record in a worker, collect
results in completion order (`σ` reorders the canonical submission-order
outcome list; `as_completed` yields some permutation), merge by id,
strip `full_text`, write.  The second component counts service calls.
Both the comprehension building `processed_map` and the merge loop run
before the output file is opened, so `crashed` leaves the file unchanged. -/
def runFromDocs (jloads : JParse) (cache : Cache) (svc : Svc) (now : String)
    (σ : List Doc → List Doc) (documents : List Doc) : RunRes × Nat :=
  let to_process := toProcess documents
  if to_process.isEmpty then (RunRes.noWrite, 0)
  else
    let pairs := to_process.map (process_single_doc jloads cache svc now)
    let calls := (pairs.map (fun p => p.2)).sum
    let results := σ (pairs.map (fun p => p.1))
    match buildMap? results with
    | none => (RunRes.crashed, calls)
    | some m =>
      match mergeById m documents with
      | none => (RunRes.crashed, calls)
      | some final => (RunRes.wrote (writeDocs final), calls)

/-- `process_jsonl_file_parallel(input_file, input_file, workers)` on a file. -/
def runParallelFile (jloads : JParse) (cache : Cache) (svc : Svc) (now : String)
    (σ : List Doc → List Doc) (input : List Line) : RunRes × Nat :=
  runFromDocs jloads cache svc now σ (loadDocs input)

/-- File contents after a run that completed (in-place processing:
`main` passes the input file as the output file). -/
def runOn (jloads : JParse) (cache : Cache) (svc : Svc) (now : String)
    (σ : List Doc → List Doc) (input : List Line) : List Line :=
  match runParallelFile jloads cache svc now σ input with
  | (RunRes.wrote out, _) => out
  | _ => input

/-! ### The sequential pipeline (`process_with_llm.py`) -/

/-- `{doc["id"] for doc in processed}` — raises when an id is missing. -/
def seqIds : List Doc → Option (List Val)
  | [] => some []
  | p :: rest =>
    match dGet p "id" with
    | none => none
    | some v => (seqIds rest).map (v :: ·)

/-- The sequential merge loop: `documents[i]` is replaced by the first
processed record with the same id, when there is one. -/
def seqMergeGo (processed : List Doc) : List Doc → Option (List Doc)
  | [] => some []
  | d :: rest =>
    match dGet d "id" with
    | none => none
    | some v =>
      let repl := match processed.find? (fun p => dGet p "id" == some v) with
        | some p => p
        | none => d
      (seqMergeGo processed rest).map (repl :: ·)

/-- `process_jsonl_file` after loading: same selector and early return;
records are processed in order (`try/except` keeps the original on
failure), merged back positionally by id, stripped and written. -/
def runSeqFromDocs (jloads : JParse) (cache : Cache) (svc : Svc) (now : String)
    (documents : List Doc) : RunRes × Nat :=
  let to_process := toProcess documents
  if to_process.isEmpty then (RunRes.noWrite, 0)
  else
    let pairs := to_process.map (process_single_doc jloads cache svc now)
    let calls := (pairs.map (fun p => p.2)).sum
    let processed := pairs.map (fun p => p.1)
    match seqIds processed with
    | none => (RunRes.crashed, calls)
    | some _ =>
      match seqMergeGo processed documents with
      | none => (RunRes.crashed, calls)
      | some final => (RunRes.wrote (writeDocs final), calls)

/-! ### The short-title pipeline (`BOE/generate_short_titles_parallel.py`)

`call_llm_json` is imported from `llm_processor` but is not among the
repository sources; it is an oracle `String → String → Except Exn Doc`
returning the parsed JSON object of one LLM call (or raising).  The claims
settled against this pipeline depend only on ordering, not on that oracle. -/

def shortTitleSystemPrompt : String :=
  "Eres un redactor experto que simplifica lenguaje jurídico para ciudadanos.\nTu objetivo: Generar un título BREVE, PERIODÍSTICO y DESCRIPTIVO (máximo 12 palabras) para esta ley.\nEl título debe capturar la esencia de lo que cambia o aprueba, para que un ciudadano entienda de qué va a primera vista.\nIMPORTANTE:\n- NO empieces con \"Ley...\", \"Real Decreto...\", \"Resolución...\". Ve directo al grano.\n- NO uses números de ley ni fechas.\n- Usa lenguaje directo y sencillo.\n\nEjemplos:\n- Original: \"Real Decreto-ley 2/2025... medidas urgentes...\" -> Titulo corto: \"Nuevas medidas urgentes contra la sequía y ayudas al campo\"\n- Original: \"Resolución... lista de admitidos...\" -> Titulo corto: \"Lista de admitidos para oposiciones de Hacienda\"\n- Original: \"Orden... tipos de interés...\" -> Titulo corto: \"Actualización de tipos de interés oficiales para 2025\"\n\nResponde en JSON: \x7b\"short_title\": \"...\"\x7d"

def shortTitleUserPrompt (title summary : String) : String :=
  "Genera un título corto para esta norma:\n\nTÍTULO ORIGINAL: " ++ title ++
    "\nRESUMEN: " ++ summary

/-- `generate_title_for_doc(doc)`: records that already have a truthy
`short_title` are returned unchanged; otherwise the generated (or cached,
or fallback `title[:100]`) short title is stored. -/
def generate_title_for_doc (jloadsDoc : String → Option Doc) (cache : Cache)
    (svcJson : String → String → Except Exn Doc) (doc : Doc) : Doc :=
  if optTruthy (dGet doc "short_title") then doc
  else
    let title := pyStr (dGetD doc "title_original" (Val.vstr ""))
    let fromResult := fun (result : Doc) =>
      dSet doc "short_title"
        (Val.vstr (pyStr (dGetD result "short_title" (Val.vstr (pyTake title 100)))))
    let exceptBranch := dSet doc "short_title" (Val.vstr (pyTake title 100))
    let callBranch :=
      match svcJson shortTitleSystemPrompt
          (shortTitleUserPrompt title (pyStr (dGetD doc "summary_plain_es" (Val.vstr "")))) with
      | .ok result => fromResult result
      | .error _ => exceptBranch
    match cache ("TITLE_GEN_" ++
        shortTitleUserPrompt title (pyStr (dGetD doc "summary_plain_es" (Val.vstr "")))) with
    | some c =>
      if strTruthy c then
        match jloadsDoc c with
        | some result => fromResult result
        | none => exceptBranch
      else callBranch
    | none => callBranch

/-- `process_file_parallel(input_path, output_path, workers)`: every loaded
record is submitted, results are collected in completion order (`σ`), and
written out **in that order** — there is no merge step and `full_text` is
not stripped. -/
def process_file_parallel (jloadsDoc : String → Option Doc) (cache : Cache)
    (svcJson : String → String → Except Exn Doc) (σ : List Doc → List Doc)
    (input : List Line) : List Line :=
  (σ ((loadDocs input).map (generate_title_for_doc jloadsDoc cache svcJson))).map
    Line.record

/-! ## Helper lemmas -/

theorem dGet_dSet (d : Doc) (k k' : String) (v : Val) :
    dGet (dSet d k v) k' = if k = k' then some v else dGet d k' := by
  by_cases h : k = k'
  · subst h
    simp [dGet_dSet_self]
  · simp [h, dGet_dSet_ne h]

/-- `process_document_with_llm` never changes the `id` field of a record it
returns successfully. -/
theorem process_document_with_llm_ok_id {jl : JParse} {cache : Cache} {svc : Svc}
    {now : String} {d d' : Doc} {c : Nat}
    (h : process_document_with_llm jl cache svc now d = (.ok d', c)) :
    dGet d' "id" = dGet d "id" := by
  simp only [process_document_with_llm] at h
  split at h
  · cases h
    simp [dGet_dSet]
  · split at h
    · cases h
      simp [dGet_dSet]
    · cases h

/-- Nor does it change the `id` field of the mutated record carried by an
escaping exception. -/
theorem process_document_with_llm_err_id {jl : JParse} {cache : Cache} {svc : Svc}
    {now : String} {d d' : Doc} {e : Exn} {c : Nat}
    (h : process_document_with_llm jl cache svc now d = (.error (e, d'), c)) :
    dGet d' "id" = dGet d "id" := by
  simp only [process_document_with_llm] at h
  split at h
  · cases h
  · split at h
    · cases h
    · cases h
      simp [dGet_dSet]

theorem process_single_doc_id (jl : JParse) (cache : Cache) (svc : Svc)
    (now : String) (d : Doc) :
    dGet (process_single_doc jl cache svc now d).1 "id" = dGet d "id" := by
  simp only [process_single_doc]
  split
  next d' c h =>
    exact process_document_with_llm_ok_id h
  next e d' c h =>
    exact process_document_with_llm_err_id h

theorem find?_eq_some_of_unique {α : Type} (l : List α) (p : α → Bool) (x : α)
    (hx : x ∈ l) (hpx : p x = true) (huniq : ∀ y ∈ l, p y = true → y = x) :
    l.find? p = some x := by
  induction l with
  | nil => cases hx
  | cons a t ih =>
    by_cases ha : p a = true
    · have hax : a = x := huniq a (by simp) ha
      rw [List.find?_cons_of_pos _ ha, hax]
    · have hax : ¬ a = x := fun he => ha (he ▸ hpx)
      have hxt : x ∈ t := by
        rcases List.mem_cons.mp hx with h | h
        · exact absurd h.symm hax
        · exact h
      rw [List.find?_cons_of_neg _ ha]
      exact ih hxt (fun y hy hpy => huniq y (by simp [hy]) hpy)

theorem find?_map {α β : Type} (f : α → β) (l : List α) (p : β → Bool) :
    (l.map f).find? p = (l.find? (fun a => p (f a))).map f := by
  induction l with
  | nil => rfl
  | cons a t ih =>
    by_cases h : p (f a) = true
    · simp [List.find?, h]
    · have h' : p (f a) = false := by simpa using h
      simp [List.find?, h', ih]

theorem loadDocs_writeDocs (l : List Doc) :
    loadDocs (writeDocs l) = l.map dStrip := by
  induction l with
  | nil => rfl
  | cons d t ih => simp [loadDocs, writeDocs, parseLine, List.filterMap] at ih ⊢ <;> simpa [ih]

theorem loadDocs_filter_records (ls : List Line) :
    loadDocs (ls.filter isRecordLine) = loadDocs ls := by
  induction ls with
  | nil => rfl
  | cons a t ih => cases a <;> simp [loadDocs, isRecordLine, parseLine, List.filterMap] at ih ⊢ <;> simpa [ih]

theorem loadDocsSeq_eq {ls : List Line} {docs : List Doc}
    (h : loadDocsSeq ls = some docs) : docs = loadDocs ls := by
  induction ls generalizing docs with
  | nil =>
    simp [loadDocsSeq] at h
    simp [loadDocs, ← h]
  | cons a t ih =>
    cases a with
    | blank =>
      simp [loadDocsSeq] at h
      simpa [loadDocs, List.filterMap, parseLine] using ih h
    | malformed s => simp [loadDocsSeq] at h
    | record d =>
      simp [loadDocsSeq] at h
      rcases h with ⟨docs', hd, he⟩
      have := ih hd
      simp [loadDocs, List.filterMap, parseLine, ← he, this]

theorem selected_dStrip (d : Doc) : selected (dStrip d) = false := by
  simp [selected, dStrip, dGet_dErase_self, optTruthy]

theorem toProcess_map_dStrip (l : List Doc) : toProcess (l.map dStrip) = [] := by
  induction l with
  | nil => rfl
  | cons d t ih => simp [toProcess, selected_dStrip] at ih ⊢ <;> simpa [ih]

theorem mergeById_length {m : List (Val × Doc)} {docs final : List Doc}
    (h : mergeById m docs = some final) : final.length = docs.length := by
  induction docs generalizing final with
  | nil =>
    simp only [mergeById, Option.some.injEq] at h
    simp [← h]
  | cons d rest ih =>
    simp only [mergeById] at h
    rcases hid : dGet d "id" with _ | v
    · rw [hid] at h
      cases h
    · rw [hid] at h
      rcases hrec : mergeById m rest with _ | tail
      · rw [hrec] at h
        cases h
      · rw [hrec] at h
        have hf : final = (mapLookup m v).getD d :: tail := by
          simpa using h.symm
        subst hf
        simp [ih hrec]

theorem buildMap?_of_ids {results : List Doc}
    (h : ∀ r ∈ results, (dGet r "id").isSome) :
    buildMap? results = some (results.map (fun r => ((dGet r "id").getD Val.vnull, r))) := by
  induction results with
  | nil => rfl
  | cons r rest ih =>
    have hr := h r (by simp)
    rcases Option.isSome_iff_exists.mp hr with ⟨v, hv⟩
    have := ih (fun x hx => h x (by simp [hx]))
    simp [buildMap?, hv, this]

theorem mergeById_eq_map {m : List (Val × Doc)} {docs : List Doc} {g : Doc → Doc}
    (h : ∀ d ∈ docs, ∃ v, dGet d "id" = some v ∧ (mapLookup m v).getD d = g d) :
    mergeById m docs = some (docs.map g) := by
  induction docs with
  | nil => rfl
  | cons d rest ih =>
    rcases h d (by simp) with ⟨v, hv, hg⟩
    have := ih (fun x hx => h x (by simp [hx]))
    simp [mergeById, hv, this, hg]

/-- Abbreviation for the per-record worker outcome of
`process_jsonl_file_parallel`: the enriched record when enrichment
succeeded, the original record otherwise. -/
def workerOutcome (jl : JParse) (cache : Cache) (svc : Svc) (now : String)
    (d : Doc) : Doc :=
  (process_single_doc jl cache svc now d).1

theorem workerOutcome_id (jl : JParse) (cache : Cache) (svc : Svc) (now : String)
    (d : Doc) :
    dGet (workerOutcome jl cache svc now d) "id" = dGet d "id" :=
  process_single_doc_id jl cache svc now d

/-- Dict lookup in `processed_map` resolved: when the batch has pairwise
distinct ids, looking up the id of record `d` finds exactly the worker
outcome of `d` when `d` was selected, and nothing otherwise — for any
completion order `results` of the worker outcomes. -/
theorem mapLookup_processed {jl : JParse} {cache : Cache} {svc : Svc} {now : String}
    {docs results : List Doc}
    (hids : ∀ d ∈ docs, (dGet d "id").isSome)
    (hnodup : (docs.map (fun d => dGet d "id")).Nodup)
    (hperm : results.Perm ((toProcess docs).map (workerOutcome jl cache svc now)))
    {d : Doc} (hd : d ∈ docs) {v : Val} (hv : dGet d "id" = some v) :
    mapLookup (results.map (fun r => ((dGet r "id").getD Val.vnull, r))) v =
      if selected d = true then some (workerOutcome jl cache svc now d) else none := by
  have hmem : ∀ y : Doc, y ∈ results.reverse ↔
      ∃ d', d' ∈ docs ∧ selected d' = true ∧ y = workerOutcome jl cache svc now d' := by
    intro y
    rw [List.mem_reverse, hperm.mem_iff, List.mem_map]
    constructor
    · rintro ⟨d', hd', he⟩
      rcases List.mem_filter.mp hd' with ⟨hdd, hsel⟩
      exact ⟨d', hdd, hsel, he.symm⟩
    · rintro ⟨d', hdd, hsel, he⟩
      exact ⟨d', List.mem_filter.mpr ⟨hdd, hsel⟩, he.symm⟩
  have hinj := List.inj_on_of_nodup_map hnodup
  have houtid : ∀ d' : Doc, dGet (workerOutcome jl cache svc now d') "id" = dGet d' "id" :=
    fun d' => workerOutcome_id jl cache svc now d'
  have hlook : mapLookup (results.map (fun r => ((dGet r "id").getD Val.vnull, r))) v =
      results.reverse.find? (fun r => (dGet r "id").getD Val.vnull == v) := by
    unfold mapLookup
    rw [← List.map_reverse, find?_map, Option.map_map]
    have h1 : ((fun p : Val × Doc => p.2) ∘ fun r : Doc => ((dGet r "id").getD Val.vnull, r)) = id := rfl
    rw [h1, Option.map_id]
    rfl
  rw [hlook]
  -- any element of `results` with id `v` must be the outcome of `d` itself
  have huniq : ∀ y ∈ results.reverse,
      ((dGet y "id").getD Val.vnull == v) = true →
      ∃ d', d' ∈ docs ∧ selected d' = true ∧ d' = d ∧
        y = workerOutcome jl cache svc now d' := by
    intro y hy hq
    rcases (hmem y).mp hy with ⟨d', hdd, hsel, he⟩
    have hyid : dGet y "id" = dGet d' "id" := he ▸ houtid d'
    rcases Option.isSome_iff_exists.mp (hids d' hdd) with ⟨v', hv'⟩
    have hveq : v' = v := by
      rw [hyid, hv'] at hq
      simpa using hq
    have hsame : dGet d' "id" = dGet d "id" := by rw [hv', hveq, hv]
    have : d' = d := hinj hdd hd hsame
    exact ⟨d', hdd, hsel, this, he⟩
  by_cases hsel : selected d = true
  · rw [if_pos hsel]
    apply find?_eq_some_of_unique
    · exact (hmem _).mpr ⟨d, hd, hsel, rfl⟩
    · rw [houtid d, hv]
      simp
    · intro y hy hq
      rcases huniq y hy hq with ⟨d', _, _, hde, he⟩
      rw [he, hde]
  · rw [if_neg hsel]
    apply List.find?_eq_none.mpr
    intro y hy
    intro hq
    rcases huniq y hy hq with ⟨d', _, hsel', hde, _⟩
    exact hsel (hde ▸ hsel')

/-- The merge of `process_jsonl_file_parallel` reconstructs the batch
pointwise: with pairwise-distinct ids and any completion order of the
worker outcomes, building `processed_map` succeeds and the merged list is
exactly the input list with every selected record replaced by its own
worker outcome. -/
theorem merge_parallel_eq_map {jl : JParse} {cache : Cache} {svc : Svc} {now : String}
    {docs results : List Doc}
    (hids : ∀ d ∈ docs, (dGet d "id").isSome)
    (hnodup : (docs.map (fun d => dGet d "id")).Nodup)
    (hperm : results.Perm ((toProcess docs).map (workerOutcome jl cache svc now))) :
    buildMap? results =
      some (results.map (fun r => ((dGet r "id").getD Val.vnull, r))) ∧
    mergeById (results.map (fun r => ((dGet r "id").getD Val.vnull, r))) docs =
      some (docs.map (fun d =>
        if selected d = true then workerOutcome jl cache svc now d else d)) := by
  have hresid : ∀ r ∈ results, (dGet r "id").isSome := by
    intro r hr
    rcases List.mem_map.mp (hperm.mem_iff.mp hr) with ⟨d', hd', he⟩
    rw [← he, workerOutcome_id]
    exact hids d' (List.mem_of_mem_filter hd')
  refine ⟨buildMap?_of_ids hresid, mergeById_eq_map ?_⟩
  intro d hd
  rcases Option.isSome_iff_exists.mp (hids d hd) with ⟨v, hv⟩
  refine ⟨v, hv, ?_⟩
  rw [mapLookup_processed hids hnodup hperm hd hv]
  by_cases hsel : selected d = true
  · simp [hsel]
  · simp [hsel]

/-! ## Spec-side predicates and run-level support lemmas -/

theorem strTruthy_iff (s : String) : strTruthy s = true ↔ ¬ s = "" := by
  constructor
  · intro h he
    subst he
    exact absurd h (by decide)
  · intro h
    cases s with
    | mk data =>
      cases data with
      | nil => exact absurd rfl h
      | cons c cs => rfl

theorem strTruthy_false {s : String} (h : strTruthy s = false) : s = "" := by
  by_contra hne
  rw [(strTruthy_iff s).mpr hne] at h
  cases h

/-- Spec reading of "raw-text field is present and non-empty". -/
def fullTextPresentNonEmpty (d : Doc) : Prop :=
  ∃ s, dGet d "full_text" = some (Val.vstr s) ∧ ¬ s = ""

/-- Spec reading of "last-updated timestamp is unset". -/
def updatedAtUnset (d : Doc) : Prop := dGet d "updated_at" = none

/-- Well-formedness connecting the spec's vocabulary to the record shapes it
speaks about: the raw-text field, when present, is a string, and the
last-updated timestamp, when present, is a non-empty (timestamp) string. -/
def wfDoc (d : Doc) : Bool :=
  (match dGet d "full_text" with
    | none => true
    | some (Val.vstr _) => true
    | some _ => false) &&
  (match dGet d "updated_at" with
    | none => true
    | some (Val.vstr s) => strTruthy s
    | some _ => false)

/-- On well-formed records the code's selector agrees exactly with the
spec's eligibility rule. -/
theorem selected_iff {d : Doc} (hwf : wfDoc d = true) :
    selected d = true ↔ fullTextPresentNonEmpty d ∧ updatedAtUnset d := by
  rw [wfDoc, Bool.and_eq_true] at hwf
  obtain ⟨hft, hua⟩ := hwf
  rcases h1 : dGet d "full_text" with _ | v1
  · simp [selected, fullTextPresentNonEmpty, optTruthy, h1]
  · rw [h1] at hft
    rcases v1 with _ | b | n | s | l <;> simp at hft
    all_goals {
      rcases h2 : dGet d "updated_at" with _ | v2
      · simp [selected, fullTextPresentNonEmpty, updatedAtUnset, optTruthy,
          Val.truthy, h1, h2, strTruthy_iff]
      · rw [h2] at hua
        rcases v2 with _ | b2 | n2 | s2 | l2 <;> simp at hua
        all_goals simp [selected, fullTextPresentNonEmpty, updatedAtUnset,
          optTruthy, Val.truthy, h1, h2, hua]
    }

theorem map_fst_process (jl : JParse) (cache : Cache) (svc : Svc) (now : String)
    (l : List Doc) :
    (l.map (process_single_doc jl cache svc now)).map (fun p => p.1) =
      l.map (workerOutcome jl cache svc now) := by
  rw [List.map_map]
  rfl

theorem map_snd_process (jl : JParse) (cache : Cache) (svc : Svc) (now : String)
    (l : List Doc) :
    (l.map (process_single_doc jl cache svc now)).map (fun p => p.2) =
      l.map (fun d => (process_single_doc jl cache svc now d).2) := by
  rw [List.map_map]
  rfl

/-- Unfolded form of `runFromDocs` in terms of the named helpers. -/
theorem runFromDocs_eq (jl : JParse) (cache : Cache) (svc : Svc) (now : String)
    (σ : List Doc → List Doc) (docs : List Doc) :
    runFromDocs jl cache svc now σ docs =
      if (toProcess docs).isEmpty then (RunRes.noWrite, 0)
      else
        match buildMap? (σ ((toProcess docs).map (workerOutcome jl cache svc now))) with
        | none => (RunRes.crashed,
            ((toProcess docs).map (fun d => (process_single_doc jl cache svc now d).2)).sum)
        | some m =>
          match mergeById m docs with
          | none => (RunRes.crashed,
              ((toProcess docs).map (fun d => (process_single_doc jl cache svc now d).2)).sum)
          | some final => (RunRes.wrote (writeDocs final),
              ((toProcess docs).map (fun d => (process_single_doc jl cache svc now d).2)).sum) := by
  simp only [runFromDocs, map_fst_process, map_snd_process]

/-- Inversion: a run that wrote produced the stripped merge of the batch. -/
theorem runFromDocs_wrote_inv {jl : JParse} {cache : Cache} {svc : Svc}
    {now : String} {σ : List Doc → List Doc} {docs : List Doc}
    {out : List Line} {calls : Nat}
    (h : runFromDocs jl cache svc now σ docs = (RunRes.wrote out, calls)) :
    ∃ final : List Doc, out = writeDocs final ∧ final.length = docs.length := by
  rw [runFromDocs_eq] at h
  split at h
  · simp at h
  · split at h
    · simp at h
    · split at h
      · simp at h
      · rename_i final hm
        rw [Prod.mk.injEq] at h
        obtain ⟨h1, _⟩ := h
        rw [RunRes.wrote.injEq] at h1
        exact ⟨final, h1.symm, mergeById_length hm⟩

theorem mergeById_isSome (m : List (Val × Doc)) {docs : List Doc}
    (hids : ∀ d ∈ docs, (dGet d "id").isSome) :
    ∃ final, mergeById m docs = some final := by
  induction docs with
  | nil => exact ⟨[], rfl⟩
  | cons d rest ih =>
    rcases Option.isSome_iff_exists.mp (hids d (by simp)) with ⟨v, hv⟩
    rcases ih (fun x hx => hids x (by simp [hx])) with ⟨tail, ht⟩
    exact ⟨(mapLookup m v).getD d :: tail, by simp [mergeById, hv, ht]⟩

/-! ## Concrete fixtures for witnesses and counterexamples -/

def oracleNone : JParse := fun _ => none

def cacheNone : Cache := fun _ => none

def svcOk : Svc := fun _ _ => Except.ok "S"

def svcFail : Svc := fun _ _ => Except.error Exn.service

def svcNoJson : Svc := fun _ _ => Except.ok "no json"

def docA : Doc := [("id", Val.vstr "a"), ("title_original", Val.vstr "t"), ("full_text", Val.vstr "x")]

def docB : Doc := [("id", Val.vstr "b"), ("title_original", Val.vstr "u"), ("full_text", Val.vstr "y")]

def docC : Doc := [("id", Val.vstr "c"), ("title_original", Val.vstr "w")]

def docR : Doc := [("id", Val.vstr "a"), ("title_original", Val.vstr "Real Decreto"), ("full_text", Val.vstr "x")]

/-! ## Claim theorems -/

/-- C4: for every loaded batch (of well-formed records: raw text a string
when present, timestamp a non-empty string when present), the work selector
selects a record iff its raw-text field `full_text` is present and
non-empty and its `updated_at` timestamp is unset; all other records are
skipped; the two filtered lists are sublists of the input (preserving
relative order) and together contain each input record exactly once. -/
theorem claim4_work_selector_partition (docs : List Doc)
    (hwf : ∀ d ∈ docs, wfDoc d = true) :
    (∀ d ∈ docs, (selected d = true ↔ fullTextPresentNonEmpty d ∧ updatedAtUnset d)) ∧
    List.Sublist (toProcess docs) docs ∧
    List.Sublist (skippedDocs docs) docs ∧
    (toProcess docs ++ skippedDocs docs).Perm docs := by
  exact ⟨fun d hd => selected_iff (hwf d hd),
    List.filter_sublist docs, List.filter_sublist docs,
    List.filter_append_perm selected docs⟩

def claim4docs : List Doc :=
  [[("full_text", Val.vstr "x"), ("id", Val.vstr "a")],
   [("full_text", Val.vstr "y"), ("updated_at", Val.vstr "2024-01-01")],
   [("id", Val.vstr "b")]]

/-- Witness for C4 at a concrete three-record batch. -/
theorem claim4_witness :
    List.Sublist (toProcess claim4docs) claim4docs ∧
    (toProcess claim4docs ++ skippedDocs claim4docs).Perm claim4docs := by
  have h := claim4_work_selector_partition claim4docs (by decide)
  exact ⟨h.2.1, h.2.2.2⟩

theorem stringExt {s t : String} (h : s.data = t.data) : s = t := by
  cases s
  cases t
  exact congrArg String.mk h

/-- C6: the prompt built by `generate_plain_summary` embeds exactly the
prefix slice `boe_text[:max_chars]`: the excerpt's characters are the first
`min(length, budget)` characters of the text (always a prefix), silently
and deterministically, and the boundary cases behave as stated (input
length = budget, budget-1, budget+1 give excerpts of length budget,
budget-1, budget). -/
theorem claim6_prompt_truncation (title text : String) (budget : Nat) :
    (∃ pre post : String,
      plainSummaryUserPrompt title (mkExcerpt text budget) =
        pre ++ mkExcerpt text budget ++ post) ∧
    (mkExcerpt text budget).data = text.data.take budget ∧
    (mkExcerpt text budget).length = min text.length budget ∧
    (mkExcerpt text budget).data ++ text.data.drop budget = text.data ∧
    (text.length = budget → (mkExcerpt text budget).length = budget) ∧
    (text.length = budget - 1 → (mkExcerpt text budget).length = budget - 1) ∧
    (text.length = budget + 1 → (mkExcerpt text budget).length = budget) := by
  have hdata : (mkExcerpt text budget).data = text.data.take budget := by
    cases hb : strTruthy text with
    | false =>
      have h0 : text = "" := strTruthy_false hb
      subst h0
      have he : strTruthy "" = false := by decide
      have hd0 : ("" : String).data = [] := rfl
      simp [mkExcerpt, he, hd0]
    | true => simp [mkExcerpt, hb, pyTake]
  have hlen : (mkExcerpt text budget).length = min text.length budget := by
    show (mkExcerpt text budget).data.length = min text.length budget
    rw [hdata, List.length_take, Nat.min_comm]
    rfl
  refine ⟨?_, hdata, hlen,
    by rw [hdata]; exact List.take_append_drop budget text.data, ?_, ?_, ?_⟩
  · refine ⟨plainSummaryHeader ++ title ++ "\n\n" ++
      (if strTruthy (mkExcerpt text budget) then "EXTRACTO: " else ""),
      plainSummaryTail, ?_⟩
    apply stringExt
    cases hb : strTruthy (mkExcerpt text budget) with
    | false =>
      rw [strTruthy_false hb]
      simp [plainSummaryUserPrompt, (by decide : strTruthy "" = false),
        String.data_append]
    | true => simp [plainSummaryUserPrompt, hb, String.data_append]
  · intro h
    rw [hlen, h]
    exact Nat.min_self budget
  · intro h
    rw [hlen, h]
    exact Nat.min_eq_left (Nat.sub_le budget 1)
  · intro h
    rw [hlen, h]
    exact Nat.min_eq_right (Nat.le_succ budget)

/-- Witness for C6 at the boundary inputs (budget 3; texts of length 3, 4
and 2). -/
theorem claim6_witness :
    (mkExcerpt "abc" 3).length = 3 ∧
    (mkExcerpt "abcd" 3).length = 3 ∧
    (mkExcerpt "ab" 3).length = 2 := by
  have h1 := claim6_prompt_truncation "t" "abc" 3
  have h2 := claim6_prompt_truncation "t" "abcd" 3
  have h3 := claim6_prompt_truncation "t" "ab" 3
  exact ⟨h1.2.2.2.2.1 (by decide), h2.2.2.2.2.2.2 (by decide),
    h3.2.2.2.2.2.1 (by decide)⟩

/-- C9: blank and unparseable lines yield no record and no error in
`process_jsonl_file_parallel` — they are invisible to the whole run — and
a run that writes produces one line per loaded record (all record lines),
so the output can have fewer records than the input had lines. -/
theorem claim9_junk_lines_skipped (jl : JParse) (cache : Cache) (svc : Svc)
    (now : String) (σ : List Doc → List Doc) (lines : List Line) :
    parseLine Line.blank = none ∧
    (∀ s, parseLine (Line.malformed s) = none) ∧
    runParallelFile jl cache svc now σ lines =
      runParallelFile jl cache svc now σ (lines.filter isRecordLine) ∧
    (∀ out calls,
      runParallelFile jl cache svc now σ lines = (RunRes.wrote out, calls) →
      out.length = (loadDocs lines).length ∧
      (loadDocs lines).length ≤ lines.length ∧
      ∀ l ∈ out, ∃ d : Doc, l = Line.record d) := by
  refine ⟨rfl, fun s => rfl, ?_, ?_⟩
  · simp only [runParallelFile, loadDocs_filter_records]
  · intro out calls h
    rw [runParallelFile] at h
    obtain ⟨final, hout, hlen⟩ := runFromDocs_wrote_inv h
    subst hout
    refine ⟨by simp [writeDocs, hlen], List.length_filterMap_le parseLine lines, ?_⟩
    intro l hl
    rcases List.mem_map.mp hl with ⟨d, _, he⟩
    exact ⟨dStrip d, he.symm⟩

def claim9lines : List Line := [Line.blank, Line.record docA, Line.malformed "oops"]

/-- Witness for C9: a file with one blank line, one record and one
unparseable line behaves exactly like the one-record file, and the written
output has 1 record for 3 input lines. -/
theorem claim9_witness :
    runParallelFile oracleNone cacheNone svcOk "T" id claim9lines =
      runParallelFile oracleNone cacheNone svcOk "T" id (claim9lines.filter isRecordLine) ∧
    (runOn oracleNone cacheNone svcOk "T" id claim9lines).length =
      (loadDocs claim9lines).length ∧
    (loadDocs claim9lines).length ≤ claim9lines.length := by
  have h := claim9_junk_lines_skipped oracleNone cacheNone svcOk "T" id claim9lines
  have hw := h.2.2.2 (runOn oracleNone cacheNone svcOk "T" id claim9lines) 4 (by decide)
  exact ⟨h.2.2.1, hw.1, hw.2.1⟩

/-- C10: when the selector selects nothing (on well-formed records: every
record lacks non-empty raw text or already has its timestamp set), both
pipelines return before the merge-and-persist step: the parallel run
reports `noWrite` with zero service calls and the file keeps its exact
previous lines (including `full_text` fields and unparseable lines), and
the sequential run does the same whenever its loader succeeds. -/
theorem claim10_no_selection_no_write (jl : JParse) (cache : Cache) (svc : Svc)
    (now : String) (σ : List Doc → List Doc) (fs : List Line)
    (hwf : ∀ d ∈ loadDocs fs, wfDoc d = true)
    (hall : ∀ d ∈ loadDocs fs, ¬ fullTextPresentNonEmpty d ∨ ¬ updatedAtUnset d) :
    runParallelFile jl cache svc now σ fs = (RunRes.noWrite, 0) ∧
    runOn jl cache svc now σ fs = fs ∧
    (∀ docs, loadDocsSeq fs = some docs →
      runSeqFromDocs jl cache svc now docs = (RunRes.noWrite, 0)) := by
  have htp : toProcess (loadDocs fs) = [] := by
    apply List.filter_eq_nil_iff.mpr
    intro d hd hsel
    rcases (selected_iff (hwf d hd)).mp hsel with ⟨hftp, huau⟩
    rcases hall d hd with hn | hn
    · exact hn hftp
    · exact hn huau
  have h1 : runParallelFile jl cache svc now σ fs = (RunRes.noWrite, 0) := by
    rw [runParallelFile, runFromDocs_eq, htp]
    rfl
  refine ⟨h1, by simp [runOn, h1], ?_⟩
  intro docs hdocs
  rw [loadDocsSeq_eq hdocs]
  simp [runSeqFromDocs, htp]

def claim10file : List Line :=
  [Line.blank, Line.record [("id", Val.vstr "a")], Line.malformed "x",
   Line.record [("full_text", Val.vstr "t"), ("updated_at", Val.vstr "2024")]]

/-- Witness for C10 on a concrete file where one record lacks raw text and
the other is already enriched. -/
theorem claim10_witness :
    runParallelFile oracleNone cacheNone svcFail "T" id claim10file = (RunRes.noWrite, 0) ∧
    runOn oracleNone cacheNone svcFail "T" id claim10file = claim10file := by
  have hall : ∀ d ∈ loadDocs claim10file,
      ¬ fullTextPresentNonEmpty d ∨ ¬ updatedAtUnset d := by
    intro d hd
    have hd' : d = [("id", Val.vstr "a")] ∨
        d = [("full_text", Val.vstr "t"), ("updated_at", Val.vstr "2024")] := by
      simpa [claim10file, loadDocs, List.filterMap, parseLine] using hd
    rcases hd' with rfl | rfl
    · left
      rintro ⟨s, hs, -⟩
      have h0 : dGet [("id", Val.vstr "a")] "full_text" = none := by decide
      rw [h0] at hs
      exact Option.noConfusion hs
    · right
      intro hu
      unfold updatedAtUnset at hu
      exact absurd hu (by decide)
  have h := claim10_no_selection_no_write oracleNone cacheNone svcFail "T" id
    claim10file (by decide) hall
  exact ⟨h.1, h.2.1⟩

/-- `call_llm` unfolded: first success (stripped) wins; the third attempt's
outcome is surfaced whatever it is. -/
theorem call_llm_eq (att : Nat → Except Exn String) :
    call_llm att =
      match att 1 with
      | .ok s => (Except.ok (pyStrip s), 1)
      | .error _ =>
        match att 2 with
        | .ok s => (Except.ok (pyStrip s), 2)
        | .error _ => (stripExcept (att 3), 3) := rfl

def attOther : Nat → Except Exn String :=
  fun n => if n = 1 then Except.error Exn.other else Except.ok "hi"

/-- C5 counterexample: the tenacity decorator on `call_llm` has the default
retry predicate, which retries on **any** exception.  With an attempt
oracle whose first attempt raises a non-transient error (`Exn.other`, e.g.
an authentication failure — not a timeout / rate limit / 5xx) and whose
second attempt succeeds, `call_llm` retries and returns the second
attempt's answer after 2 attempts, instead of surfacing the non-transient
error without retrying as the claim ("retries … only on transient service
errors") requires. -/
theorem claim5_counterexample :
    attOther 1 = Except.error Exn.other ∧
    call_llm attOther = (Except.ok "hi", 2) ∧
    ¬ call_llm attOther = (Except.error Exn.other, 1) := by decide

/-- C5 (amended): `call_llm` retries a failed attempt on **any** exception
(not only transient service errors), up to 3 attempts in total
(`stop_after_attempt(3)`), returning the first success (stripped) and
surfacing the third failure; the sleeps are the clamped exponential
`wait_exponential(multiplier=2, min=4, max=30)`; and the response-shape
parsing of `extract_keywords` happens outside the retried layer, which
therefore performs at most one service call whatever the parse outcome —
a malformed response is never retried there. -/
theorem claim5_amended_retry_policy (att : Nat → Except Exn String) :
    (∀ s, att 1 = Except.ok s → call_llm att = (Except.ok (pyStrip s), 1)) ∧
    (∀ e s, att 1 = Except.error e → att 2 = Except.ok s →
      call_llm att = (Except.ok (pyStrip s), 2)) ∧
    (∀ e1 e2 s, att 1 = Except.error e1 → att 2 = Except.error e2 →
      att 3 = Except.ok s → call_llm att = (Except.ok (pyStrip s), 3)) ∧
    (∀ e1 e2 e3, att 1 = Except.error e1 → att 2 = Except.error e2 →
      att 3 = Except.error e3 → call_llm att = (Except.error e3, 3)) ∧
    (call_llm att).2 ≤ 3 ∧
    tenacityWait 1 = 4 ∧ tenacityWait 2 = 4 ∧
    (∀ (k : Nat), tenacityWait k = max 4 (min 30 (2 * 2 ^ (k - 1)))) ∧
    (∀ (jl : JParse) (cache : Cache) (svc : Svc) (title summary : String),
      (extract_keywords jl cache svc title summary).2 ≤ 1) := by
  refine ⟨?_, ?_, ?_, ?_, ?_, by decide, by decide, fun k => rfl, ?_⟩
  · intro s h1
    rw [call_llm_eq, h1]
  · intro e s h1 h2
    simp [call_llm_eq, h1, h2]
  · intro e1 e2 s h1 h2 h3
    simp [call_llm_eq, h1, h2, h3, stripExcept]
  · intro e1 e2 e3 h1 h2 h3
    simp [call_llm_eq, h1, h2, h3, stripExcept]
  · rcases h1 : att 1 with e1 | s1
    · rcases h2 : att 2 with e2 | s2
      · rcases h3 : att 3 with e3 | s3 <;>
          simp [call_llm_eq, h1, h2, h3, stripExcept]
      · simp [call_llm_eq, h1, h2]
    · simp [call_llm_eq, h1]
  · intro jl cache svc title summary
    simp only [extract_keywords]
    repeat' split
    all_goals simp

def attAllFail : Nat → Except Exn String := fun _ => Except.error Exn.service

/-- Witness for the amended C5: an always-succeeding oracle is answered on
attempt 1, and an always-failing oracle surfaces the error after exactly 3
attempts. -/
theorem claim5_amended_witness :
    call_llm (fun _ => Except.ok "hi") = (Except.ok "hi", 1) ∧
    call_llm attAllFail = (Except.error Exn.service, 3) := by
  have h1 := (claim5_amended_retry_policy (fun _ => Except.ok "hi")).1 "hi" rfl
  have hp : pyStrip "hi" = "hi" := by decide
  rw [hp] at h1
  have h2 := (claim5_amended_retry_policy attAllFail).2.2.2.1
    Exn.service Exn.service Exn.service rfl rfl rfl
  exact ⟨h1, h2⟩

def claim2prev : List Line := [Line.record docA, Line.record docB]

/-- C2 counterexample: the persistence step opens the output file with
mode `"w"` (truncating it) and writes the new lines one by one in place —
there is no temporary file and no atomic replace.  On a two-record batch, a
run that fails after writing 1 of the 2 lines leaves the file holding a
state that is neither the complete previous content nor the complete new
content, contradicting the all-or-nothing claim. -/
theorem claim2_counterexample :
    runParallelFile oracleNone cacheNone svcOk "T" id claim2prev =
      (RunRes.wrote (runOn oracleNone cacheNone svcOk "T" id claim2prev), 8) ∧
    ¬ writeStates (runOn oracleNone cacheNone svcOk "T" id claim2prev) 1 = claim2prev ∧
    ¬ writeStates (runOn oracleNone cacheNone svcOk "T" id claim2prev) 1 =
      runOn oracleNone cacheNone svcOk "T" id claim2prev := by decide

/-- C2 (amended): the final write is performed in place — the output file
is truncated and the merged batch is written line by line, so the
observable file contents during persistence are exactly the prefixes of
the new content (empty right after truncation, the complete new content
when the loop finishes); only a run that completes leaves the full new
content visible. -/
theorem claim2_amended_in_place_write (jl : JParse) (cache : Cache) (svc : Svc)
    (now : String) (σ : List Doc → List Doc) (input : List Line)
    (out : List Line) (calls : Nat)
    (h : runParallelFile jl cache svc now σ input = (RunRes.wrote out, calls)) :
    runOn jl cache svc now σ input = out ∧
    writeStates out 0 = [] ∧
    writeStates out out.length = out ∧
    (∀ k, writeStates out k ++ out.drop k = out) := by
  refine ⟨by simp [runOn, h], rfl, by simp [writeStates],
    fun k => List.take_append_drop k out⟩

/-- Witness for the amended C2 on a concrete two-record run. -/
theorem claim2_amended_witness :
    writeStates (runOn oracleNone cacheNone svcOk "U" id claim2prev) 1 ++
      (runOn oracleNone cacheNone svcOk "U" id claim2prev).drop 1 =
      runOn oracleNone cacheNone svcOk "U" id claim2prev :=
  (claim2_amended_in_place_write oracleNone cacheNone svcOk "U" id claim2prev
    (runOn oracleNone cacheNone svcOk "U" id claim2prev) 8 (by decide)).2.2.2 1

def docS1 : Doc := [("id", Val.vstr "a"), ("short_title", Val.vstr "x")]

def docS2 : Doc := [("id", Val.vstr "b"), ("short_title", Val.vstr "y")]

def jloadsDocNone : String → Option Doc := fun _ => none

def svcJsonFail : String → String → Except Exn Doc := fun _ _ => Except.error Exn.service

/-- C1 counterexample: `process_file_parallel` in
`BOE/generate_short_titles_parallel.py` (one of the claim's cited sites)
has no merge step — it writes the worker results **in completion order**.
On a two-record batch whose records pass through unchanged, the completion
order that reverses the submission order (a legal completion order: it is
a permutation of the outcomes) produces an output whose position 0 holds
record 2, not the (unchanged) record 1 the claim requires. -/
theorem claim1_counterexample :
    (((loadDocs [Line.record docS1, Line.record docS2]).map
        (generate_title_for_doc jloadsDocNone cacheNone svcJsonFail)).reverse).Perm
      ((loadDocs [Line.record docS1, Line.record docS2]).map
        (generate_title_for_doc jloadsDocNone cacheNone svcJsonFail)) ∧
    generate_title_for_doc jloadsDocNone cacheNone svcJsonFail docS1 = docS1 ∧
    generate_title_for_doc jloadsDocNone cacheNone svcJsonFail docS2 = docS2 ∧
    process_file_parallel jloadsDocNone cacheNone svcJsonFail List.reverse
        [Line.record docS1, Line.record docS2] =
      [Line.record docS2, Line.record docS1] ∧
    ¬ docS2 = docS1 :=
  ⟨List.reverse_perm _, by decide, by decide, by decide, by decide⟩

/-- C1 (amended): in `process_jsonl_file_parallel` (which does merge by
id), for every batch with pairwise-distinct present ids and every
completion order of the worker outcomes, building `processed_map` succeeds
and the merged output is the input list pointwise: position `i` holds the
worker outcome of record `i` (its enriched version when enrichment
succeeded, the original on failure) when it was selected, and the original
record otherwise — one record per input position, in input order.
`process_file_parallel` of `generate_short_titles_parallel.py` is excluded:
it writes results in completion order (see the counterexample). -/
theorem claim1_amended_merge_preserves_order (jl : JParse) (cache : Cache)
    (svc : Svc) (now : String) (docs results : List Doc)
    (hids : ∀ d ∈ docs, (dGet d "id").isSome)
    (hnodup : (docs.map (fun d => dGet d "id")).Nodup)
    (hperm : results.Perm ((toProcess docs).map (workerOutcome jl cache svc now))) :
    ∃ m, buildMap? results = some m ∧
      mergeById m docs = some (docs.map (fun d =>
        if selected d = true then workerOutcome jl cache svc now d else d)) ∧
      (∀ final, mergeById m docs = some final →
        final.length = docs.length ∧
        ∀ i : Nat, final[i]? = (docs[i]?).map (fun d =>
          if selected d = true then workerOutcome jl cache svc now d else d)) := by
  obtain ⟨hb, hm⟩ := merge_parallel_eq_map hids hnodup hperm
  refine ⟨_, hb, hm, ?_⟩
  intro final hf
  have hfe : final = docs.map (fun d =>
      if selected d = true then workerOutcome jl cache svc now d else d) :=
    Option.some.inj (hf.symm.trans hm)
  subst hfe
  exact ⟨by simp, fun i => by simp [List.getElem?_map]⟩

/-- Witness for the amended C1 on a two-record batch (one selected record,
one passthrough record) with the identity completion order. -/
theorem claim1_amended_witness :
    ∃ m, buildMap? ((toProcess [docA, docC]).map
        (workerOutcome oracleNone cacheNone svcOk "T")) = some m ∧
      mergeById m [docA, docC] = some ([docA, docC].map (fun d =>
        if selected d = true then workerOutcome oracleNone cacheNone svcOk "T" d else d)) ∧
      (∀ final, mergeById m [docA, docC] = some final →
        final.length = [docA, docC].length ∧
        ∀ i : Nat, final[i]? = ([docA, docC][i]?).map (fun d =>
          if selected d = true then workerOutcome oracleNone cacheNone svcOk "T" d else d)) :=
  claim1_amended_merge_preserves_order oracleNone cacheNone svcOk "T" [docA, docC]
    ((toProcess [docA, docC]).map (workerOutcome oracleNone cacheNone svcOk "T"))
    (by decide) (by decide) (List.Perm.refl _)

/-- C3 counterexample: a record whose summary call fails with a transient
service error surviving all retries is **not** carried into the merge step
unmodified — `process_document_with_llm` stores the placeholder summary
`"[Error al procesar] <title>"` on it (a field is added), so the record
handed to the merge differs from the original input record. -/
theorem claim3_counterexample :
    (process_single_doc oracleNone cacheNone svcFail "T" docA).1 =
      docA ++ [("summary_plain_es", Val.vstr "[Error al procesar] t")] ∧
    ¬ (process_single_doc oracleNone cacheNone svcFail "T" docA).1 = docA := by decide

/-- C3 (amended): enrichment failures are isolated and non-fatal, but the
failed record is not byte-identical to the original: (1) when every cache
lookup misses and every service call fails (a service error after
retries), the worker outcome is the original record with only the
placeholder summary field added and one service call made; (2) its
`updated_at` stays as it was (unset records stay unselectable as enriched);
(3) the only exception that can escape `process_document_with_llm` is the
`KeyError` on a missing `id`, which fires only after the dict was mutated
in place with all five enrichment fields — `process_single_doc`'s handler
then returns that same mutated record (`updated_at` already set, `id`
still absent), not the pristine original; (4) for batches whose records
all have ids, the parallel run never crashes, for any oracles and any
completion order — the run completes without raising; (5) the final output
additionally removes `full_text` from every record. -/
theorem claim3_amended_failure_isolation (jl : JParse) (cache : Cache)
    (svc : Svc) (now : String) (d : Doc) (e : Exn)
    (hcache : ∀ p, cache p = none)
    (hsvc : ∀ sys up, svc sys up = Except.error e) :
    process_single_doc jl cache svc now d =
      (dSet d "summary_plain_es"
        (Val.vstr (placeholderSummary (pyStr (dGetD d "title_original" (Val.vstr ""))))), 1) ∧
    dGet (process_single_doc jl cache svc now d).1 "updated_at" = dGet d "updated_at" ∧
    (∀ (jl2 : JParse) (cache2 : Cache) (svc2 : Svc) (now2 : String)
        (d2 d3 : Doc) (e2 : Exn) (c2 : Nat),
      process_document_with_llm jl2 cache2 svc2 now2 d2 = (Except.error (e2, d3), c2) →
      process_single_doc jl2 cache2 svc2 now2 d2 = (d3, c2) ∧
      e2 = Exn.keyErr ∧
      dGet d2 "id" = none ∧
      dGet d3 "updated_at" = some (Val.vstr now2) ∧
      dGet d3 "id" = none) ∧
    (∀ (jl2 : JParse) (cache2 : Cache) (svc2 : Svc) (now2 : String)
        (σ : List Doc → List Doc) (docs : List Doc),
      (∀ d2 ∈ docs, (dGet d2 "id").isSome) →
      (∀ l : List Doc, (σ l).Perm l) →
      ¬ (runFromDocs jl2 cache2 svc2 now2 σ docs).1 = RunRes.crashed) ∧
    (∀ d2 : Doc, dGet (dStrip d2) "full_text" = none) := by
  have ha : process_single_doc jl cache svc now d =
      (dSet d "summary_plain_es"
        (Val.vstr (placeholderSummary (pyStr (dGetD d "title_original" (Val.vstr ""))))), 1) := by
    have h1 : process_document_with_llm jl cache svc now d =
        (Except.ok (dSet d "summary_plain_es"
          (Val.vstr (placeholderSummary (pyStr (dGetD d "title_original" (Val.vstr "")))))), 1) := by
      simp [process_document_with_llm, generate_plain_summary, hcache, hsvc]
    simp [process_single_doc, h1]
  refine ⟨ha, ?_, ?_, ?_, fun d2 => dGet_dErase_self d2 "full_text"⟩
  · rw [ha]
    exact dGet_dSet_ne (by decide) _
  · intro jl2 cache2 svc2 now2 d2 d3 e2 c2 h
    refine ⟨by simp [process_single_doc, h], ?_⟩
    simp only [process_document_with_llm] at h
    split at h
    · cases h
    · split at h
      · cases h
      · rename_i hid
        cases h
        refine ⟨rfl, hid, dGet_dSet_self _ _ _, ?_⟩
        rw [dGet_dSet_ne (by decide), dGet_dSet_ne (by decide),
          dGet_dSet_ne (by decide), dGet_dSet_ne (by decide),
          dGet_dSet_ne (by decide)]
        exact hid
  · intro jl2 cache2 svc2 now2 σ docs hids hσ
    rw [runFromDocs_eq]
    by_cases he : (toProcess docs).isEmpty = true
    · simp [he]
    · have hresid : ∀ r ∈ σ ((toProcess docs).map (workerOutcome jl2 cache2 svc2 now2)),
          (dGet r "id").isSome := by
        intro r hr
        rcases List.mem_map.mp ((hσ _).mem_iff.mp hr) with ⟨d', hd', heq⟩
        rw [← heq, workerOutcome_id]
        exact hids d' (List.mem_of_mem_filter hd')
      rw [if_neg he, buildMap?_of_ids hresid]
      obtain ⟨final, hfin⟩ := mergeById_isSome
        ((σ ((toProcess docs).map (workerOutcome jl2 cache2 svc2 now2))).map
          (fun r => ((dGet r "id").getD Val.vnull, r))) hids
      simp [hfin]

/-- Witness for the amended C3 on a concrete record with an
always-failing service. -/
theorem claim3_amended_witness :
    process_single_doc oracleNone cacheNone svcFail "T" docA =
      (dSet docA "summary_plain_es"
        (Val.vstr (placeholderSummary (pyStr (dGetD docA "title_original" (Val.vstr ""))))), 1) :=
  (claim3_amended_failure_isolation oracleNone cacheNone svcFail "T" docA Exn.service
    (fun _ => rfl) (fun _ _ => rfl)).1

/-- C7: the output write removes `full_text` from every record, so after
any completed in-place run (the CLI passes the input file as the output
file) **no** record of the written file is selectable again: a second run
— with any oracles and any completion order — selects nothing, returns
before the merge-and-persist step with zero service calls, and leaves the
file byte-identical.  Moreover (`generate_plain_summary`) a prompt whose
fingerprint is cached with a truthy response is answered from the cache
with zero service calls. -/
theorem claim7_idempotent_rerun (jl jl2 : JParse) (cache cache2 : Cache)
    (svc svc2 : Svc) (now now2 : String) (σ σ2 : List Doc → List Doc)
    (input out : List Line) (calls : Nat)
    (h : runParallelFile jl cache svc now σ input = (RunRes.wrote out, calls)) :
    toProcess (loadDocs out) = [] ∧
    runParallelFile jl2 cache2 svc2 now2 σ2 out = (RunRes.noWrite, 0) ∧
    runOn jl2 cache2 svc2 now2 σ2 out = out ∧
    (∀ (c : Cache) (s : Svc) (title text : String) (mc : Nat) (r : String),
      c (plainSummaryUserPrompt title (mkExcerpt text mc)) = some r → ¬ r = "" →
      generate_plain_summary c s title text mc = (Except.ok r, 0)) := by
  rw [runParallelFile] at h
  obtain ⟨final, hout, -⟩ := runFromDocs_wrote_inv h
  have htp : toProcess (loadDocs out) = [] := by
    rw [hout, loadDocs_writeDocs]
    exact toProcess_map_dStrip final
  have h2 : runParallelFile jl2 cache2 svc2 now2 σ2 out = (RunRes.noWrite, 0) := by
    rw [runParallelFile, runFromDocs_eq, htp]
    rfl
  refine ⟨htp, h2, by simp [runOn, h2], ?_⟩
  intro c s title text mc r hc hr
  have ht : strTruthy r = true := (strTruthy_iff r).mpr hr
  simp [generate_plain_summary, hc, ht]

def claim7input : List Line := [Line.record docA]

/-- Witness for C7: a concrete completed run whose output, fed back in, is
a no-op with zero calls; and a concrete cache hit answered without a call. -/
theorem claim7_witness :
    runParallelFile oracleNone cacheNone svcOk "T" id
        (runOn oracleNone cacheNone svcOk "T" id claim7input) = (RunRes.noWrite, 0) ∧
    generate_plain_summary (fun _ => some "R") svcOk "t" "x" 2000 = (Except.ok "R", 0) := by
  have h := claim7_idempotent_rerun oracleNone oracleNone cacheNone cacheNone svcOk svcOk
    "T" "T" id id claim7input (runOn oracleNone cacheNone svcOk "T" id claim7input) 4
    (by decide)
  exact ⟨h.2.1, h.2.2.2 (fun _ => some "R") svcOk "t" "x" 2000 "R" rfl (by decide)⟩

/-- C8 counterexample: on a service response that is not parseable JSON
(`"no json"`), the keyword fallback is `[first title word lowercased,
"boe", "normativa"]` and the affected-groups fallback is
`["todos_ciudadanos"]` — both **non-empty**, contradicting the claim's
"empty keyword and affected-group lists".  (`updated_at` is set, as the
claim says.) -/
theorem claim8_counterexample :
    dGet (process_single_doc oracleNone cacheNone svcNoJson "T" docR).1 "keywords" =
      some (Val.vlist ["real", "boe", "normativa"]) ∧
    dGet (process_single_doc oracleNone cacheNone svcNoJson "T" docR).1 "affects_to" =
      some (Val.vlist ["todos_ciudadanos"]) ∧
    dGet (process_single_doc oracleNone cacheNone svcNoJson "T" docR).1 "updated_at" =
      some (Val.vstr "T") ∧
    ¬ Val.vlist ["real", "boe", "normativa"] = Val.vlist [] ∧
    ¬ Val.vlist ["todos_ciudadanos"] = Val.vlist [] := by decide

/-- C8 (amended): for a record whose service responses do not parse into
the expected structured shape, the pipeline raises no exception and applies
the deterministic field-level fallbacks of the code: the summary field
holds the raw response text (the summary step performs no parsing),
keywords fall back to `[title.split()[0].lower(), "boe", "normativa"]`,
affected groups to `["todos_ciudadanos"]`, the transparency note holds the
raw response text, and the record is still marked enriched by setting
`updated_at` — with exactly one service call per generation step (4 in
total) and none of them retried for the parse failure. -/
theorem claim8_amended_malformed_fallbacks (jl : JParse) (cache : Cache)
    (svc : Svc) (now r : String) (d : Doc)
    (hcache : ∀ p, cache p = none)
    (hsvc : ∀ sys up, svc sys up = Except.ok r)
    (hparse : (jsonArraySlice r).bind jl = none)
    (hid : (dGet d "id").isSome)
    (w : String) (ws : List String)
    (hwords : pyWords (pyStr (dGetD d "title_original" (Val.vstr ""))) = w :: ws) :
    process_document_with_llm jl cache svc now d =
      (Except.ok (dSet (dSet (dSet (dSet (dSet d
        "summary_plain_es" (Val.vstr r))
        "keywords" (Val.vlist [pyLower w, "boe", "normativa"]))
        "affects_to" (Val.vlist ["todos_ciudadanos"]))
        "transparency_notes" (Val.vstr r))
        "updated_at" (Val.vstr now)), 4) ∧
    dGet (process_single_doc jl cache svc now d).1 "updated_at" =
      some (Val.vstr now) := by
  obtain ⟨v, hv⟩ := Option.isSome_iff_exists.mp hid
  have hmain : process_document_with_llm jl cache svc now d =
      (Except.ok (dSet (dSet (dSet (dSet (dSet d
        "summary_plain_es" (Val.vstr r))
        "keywords" (Val.vlist [pyLower w, "boe", "normativa"]))
        "affects_to" (Val.vlist ["todos_ciudadanos"]))
        "transparency_notes" (Val.vstr r))
        "updated_at" (Val.vstr now)), 4) := by
    simp [process_document_with_llm, generate_plain_summary, extract_keywords,
      determine_affected_groups, explain_transparency_importance,
      keywordsField, groupsField, transparencyField, fallbackKeywords,
      hcache, hsvc, hparse, hwords, hv]
  refine ⟨hmain, ?_⟩
  simp [process_single_doc, hmain, dGet_dSet_self]

/-- Witness for the amended C8 on a concrete record and the unparseable
response `"no json"`. -/
theorem claim8_amended_witness :
    dGet (process_single_doc oracleNone cacheNone svcNoJson "U" docR).1 "updated_at" =
      some (Val.vstr "U") :=
  (claim8_amended_malformed_fallbacks oracleNone cacheNone svcNoJson "U" "no json" docR
    (fun _ => rfl) (fun _ _ => rfl) (by decide) (by decide) "Real" ["Decreto"]
    (by decide)).2
